import Mathlib

/-!
Verification of the BBVA spreadsheet-statement parser
(`src/ofxstatement_bbva/bbva.py`) against its natural-language
specification.

The spreadsheet document is modelled as a list of rows, each row a list of
cell values (`CellValue`); this mirrors the typed-cell grid described in the
spec ("tabular grid of typed cells: text, number, date, empty").  An empty
cell carries the Python value `None`, modelled as `CellValue.empty`.  Numeric
cells carry exact rational values (Python `int`/`float` cell contents;
`Decimal(value)` is a value-preserving conversion, so both the cell value and
the converted `Decimal` are modelled as the same rational).  Fallible code
paths (`raise`, `IndexError`, `AttributeError`, `assert`) are modelled with
`Except String`.

Python string operations used by the source (`str.lower`, `str.startswith`,
`str.split`, `str.strip`) are embedded as structural recursions over
`String.data`; `lowerChar` covers the ASCII range, which is the range
exercised by the locale header tables and all documents considered here.
-/

set_option maxRecDepth 10000

namespace BBVA

/-- A spreadsheet cell value: Python `None`, `str`, numeric (`int`/`float`,
and after conversion `Decimal`), or an already-date-typed cell. -/
inductive CellValue : Type
  | empty : CellValue
  | str : String → CellValue
  | num : ℚ → CellValue
  | date : Nat × Nat × Nat → CellValue
deriving DecidableEq

/-- Python truthiness of a cell value: `None`, `""` and `0` are falsy;
datetime objects are always truthy. -/
def truthy : CellValue → Bool
  | .empty => false
  | .str s => !(s == "")
  | .num q => !(q == 0)
  | .date _ => true

/-- Python `str.lower` restricted to the ASCII letters (the only characters
appearing in the locale header tables and in the documents considered). -/
def lowerChar (c : Char) : Char :=
  match c with
  | 'A' => 'a' | 'B' => 'b' | 'C' => 'c' | 'D' => 'd' | 'E' => 'e' | 'F' => 'f'
  | 'G' => 'g' | 'H' => 'h' | 'I' => 'i' | 'J' => 'j' | 'K' => 'k' | 'L' => 'l'
  | 'M' => 'm' | 'N' => 'n' | 'O' => 'o' | 'P' => 'p' | 'Q' => 'q' | 'R' => 'r'
  | 'S' => 's' | 'T' => 't' | 'U' => 'u' | 'V' => 'v' | 'W' => 'w' | 'X' => 'x'
  | 'Y' => 'y' | 'Z' => 'z' | c => c

/-- Python `str.lower` on a whole string. -/
def lowerString (s : String) : String := ⟨s.data.map lowerChar⟩

/-- `startsWithL s p`: does character list `s` start with `p`?  Models
Python `str.startswith` (embedded by structural recursion because the
built-in `String.startsWith` is byte-position based). -/
def startsWithL : List Char → List Char → Bool
  | _, [] => true
  | [], _ :: _ => false
  | c :: cs, p :: ps => c == p && startsWithL cs ps

/-- Python `str.startswith`. -/
def pyStartsWith (s p : String) : Bool := startsWithL s.data p.data

/-- Python `str(x)` as used by the f-string composing the memo: `None`
prints as `"None"`; a string prints as itself.  Numeric and date renderings
are deterministic placeholders — no row considered here ever interpolates a
numeric or date cell into a memo. -/
def pyStr : CellValue → String
  | .empty => "None"
  | .str s => s
  | .num q => toString q.num ++ "/" ++ toString q.den
  | .date d => toString d.1 ++ "/" ++ toString d.2.1 ++ "/" ++ toString d.2.2

/-- The two locales present in all three tables of the source.  The
constructor of `BBVAParser` asserts that the requested locale is a key of
`FIELD_MAPPINGS`, `TYPE_MAPPING` and `TYPE_MAPPING_PREFIXES`, so parsing
only ever runs with one of these. -/
inductive Locale : Type
  | es : Locale
  | it : Locale
deriving DecidableEq

/-- The logical fields, in the declaration order of the `FIELD_MAPPINGS`
dictionaries (which is the iteration order of the dynamically created
`Fields` enum). -/
inductive Field : Type
  | VALUE_DATE | DATE | CONCEPT | MOVEMENT | AMOUNT | CURRENCY | BALANCE | DESCRIPTION
deriving DecidableEq

/-- Iteration order of `self.fields` (Python `Enum` preserves the insertion
order of the defining dictionary). -/
def fieldsList : List Field :=
  [.VALUE_DATE, .DATE, .CONCEPT, .MOVEMENT, .AMOUNT, .CURRENCY, .BALANCE, .DESCRIPTION]

/-- `FIELD_MAPPINGS`: locale-specific literal header text of each field. -/
def fieldName : Locale → Field → String
  | .es, .VALUE_DATE => "F.Valor"
  | .es, .DATE => "Fecha"
  | .es, .CONCEPT => "Concepto"
  | .es, .MOVEMENT => "Movimiento"
  | .es, .AMOUNT => "Importe"
  | .es, .CURRENCY => "Divisa"
  | .es, .BALANCE => "Disponible"
  | .es, .DESCRIPTION => "Observaciones"
  | .it, .VALUE_DATE => "Data valuta"
  | .it, .DATE => "Data"
  | .it, .CONCEPT => "Concetto"
  | .it, .MOVEMENT => "Movimento"
  | .it, .AMOUNT => "Importo"
  | .it, .CURRENCY => "Valuta"
  | .it, .BALANCE => "Disponibile"
  | .it, .DESCRIPTION => "Osservazioni"

/-- `TYPE_MAPPING`: exact-match concept/movement text to transaction type,
as an association list in the declaration order of the source dictionary. -/
def TYPE_MAPPING : Locale → List (String × String)
  | .es =>
    [("Pago con tarjeta", "POS"),
     ("Bizum", "PAYMENT"),
     ("Transferencia realizada", "XFER"),
     ("Transferencia recibida", "XFER")]
  | .it =>
    [("Bonifico ricevuto", "XFER"),
     ("Bonifico eseguito", "XFER"),
     ("Pagamento con carta", "POS"),
     ("Prelievo bancomat", "ATM"),
     ("Addebito diretto", "DIRECTDEBIT"),
     ("Accredito stipendio", "DIRECTDEP"),
     ("Commissioni", "FEE")]

/-- `TYPE_MAPPING_PREFIXES`: ordered text-prefix to transaction type.  The
first `"es"` key reproduces the source bytes exactly: the file stores the
mojibake `"Abono BonificaciÃ³n pack"` (U+00C3 U+00B3, a
double-encoded `ó`), not `"Abono Bonificación pack"`. -/
def TYPE_MAPPING_PREFIXES : Locale → List (String × String)
  | .es =>
    [("Abono BonificaciÃ³n pack", "FEE"),
     ("Abono ", "DIRECTDEP"),
     ("Adeudo ", "DIRECTDEBIT"),
     ("Retirada de efectivo", "ATM")]
  | .it =>
    [("Trasferimento ", "XFER"),
     ("Accredito ", "DIRECTDEP"),
     ("Addebito ", "DIRECTDEBIT"),
     ("Prelievo ", "ATM"),
     ("Commissione ", "FEE"),
     ("Bonifico ", "XFER")]

/-- `TYPE_MAPPING[self.locale].get(x)`: a dictionary lookup matches only
when the looked-up value is that exact string (lookup with a non-`str`
cell value, including `None`, finds nothing and raises nothing). -/
def exactLookup (lc : Locale) (v : CellValue) : Option String :=
  match v with
  | .str s => (TYPE_MAPPING lc).lookup s
  | _ => none

/-- The `for` loop over `TYPE_MAPPING_PREFIXES[self.locale].items()`: the
first table entry whose key the concept text starts with. -/
def firstMatchingEntry (lc : Locale) (c : String) : Option (String × String) :=
  (TYPE_MAPPING_PREFIXES lc).find? (fun pt => pyStartsWith c pt.1)

/-- `BBVAParser.get_transaction_type`.  The inputs are the raw concept and
movement cell values.  A non-`str` concept that survives both exact lookups
reaches `concept.startswith(...)` and raises `AttributeError`. -/
def get_transaction_type (lc : Locale) (concept movement : CellValue) :
    Except String (String × CellValue) :=
  match exactLookup lc concept with
  | some t => .ok (t, concept)
  | none =>
    match exactLookup lc movement with
    | some t => .ok (t, movement)
    | none =>
      match concept with
      | .str c =>
        .ok (match firstMatchingEntry lc c with
             | some pt => (pt.2, .str c)
             | none => ("OTHER", .empty))
      | _ => .error "AttributeError"

/-- The classifier contract transcribed from the spec's words (section 4.3):
exact match of the concept text, then exact match of the movement text, then
the first prefix in declared table order that the concept text starts with,
otherwise type tag "OTHER" with source text absent. -/
def classify_spec (lc : Locale) (concept_text movement_text : String) :
    String × Option String :=
  match (TYPE_MAPPING lc).lookup concept_text with
  | some t => (t, some concept_text)
  | none =>
    match (TYPE_MAPPING lc).lookup movement_text with
    | some t => (t, some movement_text)
    | none =>
      match (TYPE_MAPPING_PREFIXES lc).find? (fun pt => pyStartsWith concept_text pt.1) with
      | some pt => (pt.2, some concept_text)
      | none => ("OTHER", none)

/-- The index of the first element satisfying `p`, as the `for ... break`
loops of `BBVAParser.parse` compute it. -/
def firstIdx (p : α → Bool) : List α → Option Nat
  | [] => none
  | x :: xs => if p x then some 0 else (firstIdx p xs).map (· + 1)

/-- The header-cell test of `BBVAParser.parse`: the cell value is a string
whose lowercasing occurs among the lowercased locale field headers. -/
def isHeaderCell (lc : Locale) (v : CellValue) : Bool :=
  match v with
  | .str s => (fieldsList.map (fun f => lowerString (fieldName lc f))).contains (lowerString s)
  | _ => false

/-- The header-location scan of `BBVAParser.parse`: rows top-to-bottom,
cells left-to-right, stopping at the first matching cell; returns its
(0-based) row index and column index. -/
def findHeader (lc : Locale) : List (List CellValue) → Option (Nat × Nat)
  | [] => none
  | r :: rest =>
    match firstIdx (isHeaderCell lc) r with
    | some c => some (0, c)
    | none => (findHeader lc rest).map (fun p => (p.1 + 1, p.2))

/-- The field-to-column mapping of `BBVAParser.parse`: for one field, the
first cell of the header row at or right of the start column whose value is
exactly (case-sensitively) the field's locale header string; the offset is
relative to the start column. -/
def fieldOffset (lc : Locale) (headerRow : List CellValue) (sc : Nat) (f : Field) :
    Option Nat :=
  firstIdx (fun v => v == CellValue.str (fieldName lc f)) (headerRow.drop sc)

/-- `BBVAParser.get_field_record`: `None` when the field was never mapped,
the indexed cell value otherwise; Python list indexing past the end raises
`IndexError`. -/
def get_field_record (cells : List CellValue) (ofs : Option Nat) :
    Except String CellValue :=
  match ofs with
  | none => .ok .empty
  | some i =>
    match cells.get? i with
    | some v => .ok v
    | none => .error "IndexError"

/-- Python whitespace test for `str.split`/`str.strip` (space, tab,
newline, carriage return cover all documents considered). -/
def isSpaceChar (c : Char) : Bool :=
  c == ' ' || c == '\t' || c == '\n' || c == '\r'

/-- The maximal runs of non-whitespace characters, in order: Python
`str.split()` with no argument. -/
def splitWs : List Char → List (List Char)
  | [] => []
  | c :: cs =>
    if isSpaceChar c then splitWs cs
    else
      match splitWs cs with
      | [] => [[c]]
      | w :: ws =>
        match cs with
        | [] => [[c]]
        | d :: _ => if isSpaceChar d then [c] :: w :: ws else (c :: w) :: ws

/-- `BBVAParser.strip_spaces`: `" ".join(string.strip().split())`, i.e.
collapse every whitespace run to a single space and trim the ends. -/
def strip_spaces (s : String) : String :=
  ⟨List.intercalate [' '] (splitWs s.data)⟩

/-- The characters after the first occurrence of the separator, when the
separator occurs: Python `value.split(sep, 1)[1]` (raising when there is no
occurrence, hence the `Option`). -/
def afterFirstSep (sep : List Char) : List Char → Option (List Char)
  | [] => none
  | c :: cs =>
    if startsWithL (c :: cs) sep then some ((c :: cs).drop sep.length)
    else afterFirstSep sep cs

/-- Modelled from the spec: the base parser's date parsing with the
subclass's `date_format = "%d/%m/%Y"` (the base `StatementParser` is the
external `ofxstatement` collaborator, not code of this repository).  A
day/month/year triple of digit groups separated by `/`; anything else is a
parse failure.  Range validation of day and month is not modelled — no
claim depends on it. -/
def parse_datetime (s : String) : Except String CellValue :=
  match (s.data.splitOn '/').map digitsToNat with
  | [some d, some m, some y] => .ok (.date (d, m, y))
  | _ => .error "time data does not match format"
where
  digitsToNat (l : List Char) : Option Nat :=
    match l with
    | [] => none
    | _ => go l 0
  go : List Char → Nat → Option Nat
    | [], acc => some acc
    | c :: cs, acc => if c.isDigit then go cs (acc * 10 + (c.toNat - 48)) else none

/-- `BBVAParser.parse_value`.  `"amount"` with an `int`/`float` cell becomes
`Decimal(value)` — a value-preserving conversion, modelled as the same
rational.  `"date"` with a non-string passes through; a string goes to the
base parser's `strptime`.  `"memo"` with a string containing `" - "` keeps
the stripped text after the first separator; on any failure the `except`
falls through to the base parser.  The base parser's `parse_value` for the
remaining cases is modelled from the spec as the identity (the spec
specifies conversions only for dates and numeric amounts). -/
def parse_value (v : CellValue) (field : String) : Except String CellValue :=
  if field == "amount" then
    match v with
    | .num q => .ok (.num q)
    | _ => .ok v
  else if field == "date" then
    match v with
    | .str s => parse_datetime s
    | _ => .ok v
  else if field == "memo" then
    match v with
    | .str s =>
      match afterFirstSep [' ', '-', ' '] s.data with
      | some tail => .ok (.str (strip_spaces ⟨tail⟩))
      | none => .ok v
    | _ => .ok v
  else .ok v

/-- A constructed transaction record.  `date` and `amount` hold the
parsed cell values; `currency` holds the `Currency` object's symbol when
one was attached.  Modelled from the spec: `Currency` values compare by
their symbol (currency "agreement" in the spec is agreement of values). -/
structure StatementLine where
  date : CellValue
  amount : CellValue
  trntype : String
  memo : String
  currency : Option CellValue
  id : String
deriving DecidableEq

/-- Modelled from the spec: `generate_transaction_id` (external
`ofxstatement` collaborator) returns a deterministic identifier derived
from the record's fields. -/
def generate_transaction_id (date amount : CellValue) (memo : String) : String :=
  pyStr date ++ "|" ++ pyStr amount ++ "|" ++ memo

/-- Modelled from the spec: `StatementLine.assert_valid` (external
`ofxstatement` collaborator) checks that date, amount and identifier are
present; invalidity aborts the whole parse. -/
def assert_valid (l : StatementLine) : Except String StatementLine :=
  if (l.date != .empty) && (l.amount != .empty) && (l.id != "") then .ok l
  else .error "RecordValidationError"

/-- `BBVAParser.parse_record` on the cells of one data row (already sliced
from the start column, as `split_records` yields them). -/
def parse_record (lc : Locale) (fmap : Field → Option Nat) (cells : List CellValue) :
    Except String StatementLine := do
  let dateRaw ← get_field_record cells (fmap .DATE)
  let date ← parse_value dateRaw "date"
  let amountRaw ← get_field_record cells (fmap .AMOUNT)
  let amount ← parse_value amountRaw "amount"
  let concept ← get_field_record cells (fmap .CONCEPT)
  let movement ← get_field_record cells (fmap .MOVEMENT)
  let description ← get_field_record cells (fmap .DESCRIPTION)
  let tt ← get_transaction_type lc concept movement
  let memo := "[(" ++ pyStr tt.2 ++ ")-(" ++ pyStr movement ++ ")] " ++ pyStr description
  let currencyRaw ← get_field_record cells (fmap .CURRENCY)
  let currency ← parse_value currencyRaw "currency"
  assert_valid
    { date, amount, trntype := tt.1, memo,
      currency := if truthy currency then some currency else none,
      id := generate_transaction_id date amount memo }

/-- `BBVAParser.split_records`: rows below the header, each sliced from the
start column, up to (excluding) the first row whose sliced cells are all
falsy; a row index past the sheet yields all-empty cells and also stops the
loop, modelled by the end of the row list. -/
def split_records (sc : Nat) : List (List CellValue) → List (List CellValue)
  | [] => []
  | r :: rest =>
    let line := r.drop sc
    if line.any truthy then line :: split_records sc rest else []

/-- The 0-based start of the row tuples yielded by
`iter_rows(min_col=self._start_column)`: `openpyxl` treats `min_col` as
1-based and replaces a falsy `0` by `1`, so the tuple starts at 0-based
column `sc - 1` when `sc ≥ 1` and at `0` when `sc = 0`. -/
def minColIdx (sc : Nat) : Nat := (if sc = 0 then 1 else sc) - 1

/-- The inner `for cell in row` loop of the balance scan: the first list
argument counts the remaining cells of the tuple; each iteration reads the
BALANCE field from the re-sliced tuple and, when truthy, overwrites the
running start balance with its parsed value. -/
def balance_row_go (sc : Nat) (balOfs : Option Nat) (tuple : List CellValue) :
    List CellValue → Option CellValue → Except String (Option CellValue)
  | [], acc => .ok acc
  | _ :: rest, acc => do
    let balance ← get_field_record (tuple.drop sc) balOfs
    if truthy balance then do
      let v ← parse_value balance "amount"
      balance_row_go sc balOfs tuple rest (some v)
    else balance_row_go sc balOfs tuple rest acc

/-- The body of the balance loop of `BBVAParser.parse` for one row: once
per cell of the tuple, read the BALANCE field from the re-sliced tuple and,
when truthy, overwrite the statement's start balance with its parsed
value. -/
def balance_row (sc : Nat) (balOfs : Option Nat) (tuple : List CellValue)
    (sb : Option CellValue) : Except String (Option CellValue) :=
  balance_row_go sc balOfs tuple tuple sb

/-- The balance loop of `BBVAParser.parse` over the remaining rows. -/
def balance_go (sc : Nat) (balOfs : Option Nat) (init : Option CellValue) :
    List (List CellValue) → Except String (Option CellValue)
  | [] => .ok init
  | r :: rest => do
    let sb ← balance_row sc balOfs (r.drop (minColIdx sc)) init
    balance_go sc balOfs sb rest

/-- Lines 176–180 of the source: scan every row from the first data row to
the end of the sheet (the loop does not stop at a blank row), starting from
an unset balance. -/
def balance_scan (sc : Nat) (balOfs : Option Nat) (dataRows : List (List CellValue)) :
    Except String (Option CellValue) :=
  balance_go sc balOfs none dataRows

/-- The balance value one row of the balance loop leaves behind, if any:
`none` when the row's tuple is empty (the loop body never runs), when the
BALANCE read fails, or when the read value is falsy; otherwise the read
value (for a truthy value, `parse_value (·, "amount")` is the identity:
`Decimal` of a numeric value is value-preserving, and every other value
passes through the modelled base parser unchanged). -/
def rowBal (sc : Nat) (balOfs : Option Nat) (r : List CellValue) : Option CellValue :=
  let tuple := r.drop (minColIdx sc)
  match tuple with
  | [] => none
  | _ :: _ =>
    match get_field_record (tuple.drop sc) balOfs with
    | .ok v => if truthy v then some v else none
    | .error _ => none

/-- The currency-unification loop of `BBVAParser.parse`: a held `None` (or
equal) currency is overwritten by the line's currency; a mismatch clears
the statement currency and breaks. -/
def unify_currency : Option CellValue → List (Option CellValue) → Option CellValue
  | cur, [] => cur
  | cur, c :: rest => if cur = none ∨ cur = c then unify_currency c rest else none

/-- Modelled from the spec: `recalculate_balance` (external `ofxstatement`
collaborator) recomputes the ending balance as the starting balance plus
the signed sum of the transaction amounts, in record order; the starting
balance is not modified. -/
def recalculate_balance (sb : Option CellValue) (lines : List StatementLine) : Option ℚ :=
  some ((match sb with | some (.num q) => q | _ => 0) +
        (lines.map (fun l => match l.amount with | .num q => q | _ => 0)).sum)

/-- The assembled statement (the fields the claims are about). -/
structure Statement where
  account_id : String
  start_balance : Option CellValue
  end_balance : Option ℚ
  currency : Option CellValue
  lines : List StatementLine
deriving DecidableEq

deriving instance DecidableEq for Except

/-- The widest row of the document. -/
def maxWidth (doc : List (List CellValue)) : Nat :=
  doc.foldl (fun w r => max w r.length) 0

/-- A row padded on the right with empty cells: `openpyxl` row access and
`iter_rows` materialize every row out to the sheet's `max_column`, padding
with `None`-valued cells. -/
def padTo (w : Nat) (r : List CellValue) : List CellValue :=
  r ++ List.replicate (w - r.length) .empty

/-- `BBVAParser.parse` on a document for a supported locale: header
location, field-to-column mapping, required-field checks, the balance scan,
the base parser's record loop (`split_records` + `parse_record`, with a
record validation failure aborting the parse), currency unification and
balance recalculation. -/
def parse (lc : Locale) (account_id : String) (doc0 : List (List CellValue)) :
    Except String Statement := do
  let doc := doc0.map (padTo (maxWidth doc0))
  match findHeader lc doc with
  | none => .error "No compatible header cell found"
  | some (hr, sc) =>
    let headerRow := doc.getD hr []
    let fmap : Field → Option Nat := fieldOffset lc headerRow sc
    if fmap .DATE = none then .error "No date column found"
    else if fmap .AMOUNT = none then .error "No amount column found"
    else if fmap .CONCEPT = none then .error "No concept column"
    else do
      let dataRows := doc.drop (hr + 1)
      let sb ← balance_scan sc (fmap .BALANCE) dataRows
      let lines ← (split_records sc dataRows).mapM (parse_record lc fmap)
      let currency := unify_currency none (lines.map (·.currency))
      .ok { account_id, start_balance := sb,
            end_balance := recalculate_balance sb lines,
            currency, lines }

/-- The exact decimal `-45.30` of the spec's end-to-end scenario. -/
def amtNeg45_30 : ℚ := ⟨-453, 10, by norm_num, by norm_num⟩

/-- The exact decimal `954.70` of the spec's end-to-end scenario. -/
def bal954_70 : ℚ := ⟨9547, 10, by norm_num, by norm_num⟩

/-- The Spanish header row used by the concrete documents, with the start
column at column 0. -/
def esHeader : List CellValue :=
  [.str "Fecha", .str "Concepto", .str "Movimiento", .str "Importe",
   .str "Divisa", .str "Disponible", .str "Observaciones"]

/-- The field-to-column map `parse` builds from `esHeader` (offsets are
relative to start column 0; `F.Valor` has no column). -/
def fmapStd : Field → Option Nat
  | .VALUE_DATE => none
  | .DATE => some 0
  | .CONCEPT => some 1
  | .MOVEMENT => some 2
  | .AMOUNT => some 3
  | .CURRENCY => some 4
  | .BALANCE => some 5
  | .DESCRIPTION => some 6

/-- A data row under `esHeader`: date-typed date cell, concept, movement
and description texts, amount, currency cell and balance cell. -/
def mkRow (c m d : String) (q : ℚ) (cur bal : CellValue) : List CellValue :=
  [.date (1, 3, 2024), .str c, .str m, .num q, cur, bal, .str d]

/-- Two data rows whose balance cells hold 100 and 200. -/
def docBalances : List (List CellValue) :=
  [esHeader,
   mkRow "Pago con tarjeta" "" "a" 10 (.str "EUR") (.num 100),
   mkRow "Pago con tarjeta" "" "b" 20 (.str "EUR") (.num 200)]

/-- Three data rows that all carry currency EUR. -/
def docEur3 : List (List CellValue) :=
  [esHeader,
   mkRow "Pago con tarjeta" "" "a" 10 (.str "EUR") (.num 100),
   mkRow "Pago con tarjeta" "" "b" 20 (.str "EUR") (.num 200),
   mkRow "Pago con tarjeta" "" "c" 30 (.str "EUR") (.num 300)]

/-- Two data rows carrying currencies EUR and USD. -/
def docEurUsd : List (List CellValue) :=
  [esHeader,
   mkRow "Pago con tarjeta" "" "a" 10 (.str "EUR") (.num 100),
   mkRow "Pago con tarjeta" "" "b" 20 (.str "USD") (.num 200)]

/-- A first data row with no currency cell value, then one carrying EUR. -/
def docNoneEur : List (List CellValue) :=
  [esHeader,
   mkRow "Pago con tarjeta" "" "a" 10 .empty (.num 100),
   mkRow "Pago con tarjeta" "" "b" 20 (.str "EUR") (.num 200)]

/-- Two valid data rows, a fully empty row, then a third valid data row. -/
def docBlankRow : List (List CellValue) :=
  [esHeader,
   mkRow "Pago con tarjeta" "" "a" 10 (.str "EUR") (.num 100),
   mkRow "Pago con tarjeta" "" "b" 20 (.str "EUR") (.num 200),
   [.empty, .empty, .empty, .empty, .empty, .empty, .empty],
   mkRow "Pago con tarjeta" "" "c" 30 (.str "EUR") (.num 300)]

/-- One valid data row, then a row whose only populated cells hold the
number `0` (the rest are `None` or `""`), then another valid data row. -/
def docZeroRow : List (List CellValue) :=
  [esHeader,
   mkRow "Pago con tarjeta" "" "a" 10 (.str "EUR") (.num 100),
   [.empty, .str "", .empty, .num 0, .empty, .num 0, .str ""],
   mkRow "Pago con tarjeta" "" "c" 30 (.str "EUR") (.num 300)]

/-- The spec's end-to-end scenario document: the Spanish header and the
data row `01/03/2024, Pago con tarjeta, , -45.30, EUR, 954.70,
Supermercado`. -/
def docEndToEnd : List (List CellValue) :=
  [esHeader,
   [.str "01/03/2024", .str "Pago con tarjeta", .str "", .num amtNeg45_30,
    .str "EUR", .num bal954_70, .str "Supermercado"]]

/-- Header cells that are case variants of the Spanish locale strings. -/
def docUpperHeader : List (List CellValue) :=
  [[.str "FECHA", .str "CONCEPTO", .str "IMPORTE"]]

/-- A data row whose concept and movement match nothing in the Spanish
tables. -/
def cellsUnclassified : List CellValue :=
  mkRow "Zzz" "Mmm" "Dd" 5 (.str "EUR") (.num 100)

/-- On the `"amount"` field, `parse_value` is the identity: `Decimal` of a
numeric value is value-preserving, and every other value passes through
the (modelled) base parser unchanged. -/
theorem parse_value_amount_id (v : CellValue) : parse_value v "amount" = .ok v := by
  cases v <;> rfl

/-- One row of the balance loop: the loop body runs once per tuple cell
but is idempotent, so the row leaves the start balance at the read value
when that value is truthy, and untouched otherwise. -/
theorem balance_row_go_eq (sc : Nat) (bo : Option Nat) (tuple : List CellValue)
    (l : List CellValue) (acc : Option CellValue) :
    balance_row_go sc bo tuple l acc =
      match l with
      | [] => .ok acc
      | _ :: _ =>
        match get_field_record (tuple.drop sc) bo with
        | .ok v => .ok (if truthy v then some v else acc)
        | .error e => .error e := by
  induction l generalizing acc with
  | nil => rfl
  | cons x rest ih =>
    show balance_row_go sc bo tuple (x :: rest) acc = _
    unfold balance_row_go
    cases hg : get_field_record (tuple.drop sc) bo with
    | error e => rfl
    | ok v =>
      show (if truthy v = true then
              (parse_value v "amount").bind (fun w => balance_row_go sc bo tuple rest (some w))
            else balance_row_go sc bo tuple rest acc) = _
      cases ht : truthy v with
      | true =>
        rw [if_pos rfl, parse_value_amount_id]
        show balance_row_go sc bo tuple rest (some v) = _
        rw [ih]
        cases rest <;> simp [hg, ht]
      | false =>
        rw [if_neg (by simp)]
        rw [ih]
        cases rest <;> simp [hg, ht]

/-- Appending to the front shifts the default of `getLast?` with `or`. -/
theorem getLast?_cons_or {α : Type} (x : α) (L : List α) (o : Option α) :
    (Option.or ((x :: L).getLast?) o) = Option.or (L.getLast?) (some x) := by
  induction L generalizing x o with
  | nil => rfl
  | cons y ys ih =>
    rw [List.getLast?_cons_cons]
    rw [ih y o, ih y (some x)]

/-- The balance loop over a list of rows ends with the balance of the last
row that sets one, and with the initial value when no row does. -/
theorem balance_go_last (sc : Nat) (bo : Option Nat) (rows : List (List CellValue))
    (init out : Option CellValue) (h : balance_go sc bo init rows = .ok out) :
    out = Option.or ((rows.filterMap (rowBal sc bo)).getLast?) init := by
  induction rows generalizing init with
  | nil =>
    simp only [balance_go] at h
    cases h
    rfl
  | cons r rest ih =>
    have hsplit : balance_go sc bo init (r :: rest) =
        Except.bind (balance_row sc bo (r.drop (minColIdx sc)) init)
          (fun sb => balance_go sc bo sb rest) := rfl
    cases htuple : r.drop (minColIdx sc) with
    | nil =>
      have hb : balance_row sc bo (r.drop (minColIdx sc)) init = .ok init := by
        rw [balance_row, balance_row_go_eq, htuple]
      rw [hsplit, hb] at h
      rw [ih init h, List.filterMap_cons]
      simp [rowBal, htuple]
    | cons c cs =>
      cases hg : get_field_record ((c :: cs).drop sc) bo with
      | error e =>
        have hb : balance_row sc bo (r.drop (minColIdx sc)) init = .error e := by
          rw [balance_row, balance_row_go_eq, htuple]
          simp [hg]
        rw [hsplit, hb] at h
        cases h
      | ok v =>
        cases ht : truthy v with
        | true =>
          have hb : balance_row sc bo (r.drop (minColIdx sc)) init = .ok (some v) := by
            rw [balance_row, balance_row_go_eq, htuple]
            simp [hg, ht]
          rw [hsplit, hb] at h
          rw [ih (some v) h, List.filterMap_cons]
          simp only [rowBal, htuple, hg, ht, if_pos]
          rw [getLast?_cons_or]
        | false =>
          have hb : balance_row sc bo (r.drop (minColIdx sc)) init = .ok init := by
            rw [balance_row, balance_row_go_eq, htuple]
            simp [hg, ht]
          rw [hsplit, hb] at h
          rw [ih init h, List.filterMap_cons]
          simp [rowBal, htuple, hg, ht]

/-- The source classifier agrees with the spec's resolution order on text
inputs (and in particular never raises on them). -/
theorem classify_agrees (lc : Locale) (c m : String) :
    get_transaction_type lc (.str c) (.str m) =
      .ok ((classify_spec lc c m).1,
           match (classify_spec lc c m).2 with
           | some s => CellValue.str s
           | none => CellValue.empty) := by
  unfold get_transaction_type classify_spec exactLookup firstMatchingEntry
  dsimp only
  cases h1 : (TYPE_MAPPING lc).lookup c with
  | some t => rfl
  | none =>
    cases h2 : (TYPE_MAPPING lc).lookup m with
    | some t => rfl
    | none =>
      cases h3 : (TYPE_MAPPING_PREFIXES lc).find? (fun pt => pyStartsWith c pt.1) with
      | some pt => rfl
      | none => rfl

/-- `firstIdx` finds a satisfying element and nothing earlier satisfies. -/
theorem firstIdx_some {α : Type} (p : α → Bool) (l : List α) (i : Nat)
    (h : firstIdx p l = some i) :
    ∃ v, l.get? i = some v ∧ p v = true ∧
      ∀ j v', j < i → l.get? j = some v' → p v' = false := by
  induction l generalizing i with
  | nil => cases h
  | cons x xs ih =>
    by_cases hx : p x
    · rw [firstIdx, if_pos hx] at h
      cases h
      exact ⟨x, rfl, hx, fun j v' hj _ => absurd hj (Nat.not_lt_zero j)⟩
    · rw [firstIdx, if_neg hx] at h
      cases hk : firstIdx p xs with
      | none => rw [hk] at h; cases h
      | some k =>
        rw [hk] at h
        cases h
        obtain ⟨v, hv, hpv, hmin⟩ := ih k hk
        refine ⟨v, hv, hpv, fun j v' hj hget => ?_⟩
        cases j with
        | zero =>
          cases hget
          exact eq_false_of_ne_true hx
        | succ j' =>
          exact hmin j' v' (Nat.lt_of_succ_lt_succ hj) hget

/-- `firstIdx` finds nothing when no element satisfies. -/
theorem firstIdx_none {α : Type} (p : α → Bool) (l : List α)
    (h : ∀ v ∈ l, p v = false) : firstIdx p l = none := by
  induction l with
  | nil => rfl
  | cons x xs ih =>
    rw [firstIdx, if_neg (by simp [h x (List.mem_cons_self x xs)]), ih]
    · rfl
    · exact fun v hv => h v (List.mem_cons_of_mem x hv)

/-- When `firstIdx` finds nothing, no element satisfies. -/
theorem firstIdx_none_all {α : Type} (p : α → Bool) (l : List α)
    (h : firstIdx p l = none) : ∀ v ∈ l, p v = false := by
  induction l with
  | nil => intro v hv; cases hv
  | cons x xs ih =>
    intro v hv
    by_cases hx : p x
    · rw [firstIdx, if_pos hx] at h; cases h
    · rw [firstIdx, if_neg hx] at h
      cases List.mem_cons.mp hv with
      | inl he => cases he; exact eq_false_of_ne_true hx
      | inr hm =>
        cases hk : firstIdx p xs with
        | some k => rw [hk] at h; cases h
        | none => exact ih hk v hm

/-- A document with no header-matching cell has no located header. -/
theorem findHeader_none (lc : Locale) (doc : List (List CellValue))
    (h : ∀ r ∈ doc, ∀ v ∈ r, isHeaderCell lc v = false) :
    findHeader lc doc = none := by
  induction doc with
  | nil => rfl
  | cons r rest ih =>
    rw [findHeader, firstIdx_none _ _ (h r (List.mem_cons_self r rest)),
        ih fun r' hr' => h r' (List.mem_cons_of_mem r hr')]
    rfl

/-- A located header is a matching cell, every earlier row is free of
matching cells, and every earlier cell of its row does not match: the scan
is top-to-bottom, left-to-right, first match wins. -/
theorem findHeader_first (lc : Locale) (doc : List (List CellValue)) (r c : Nat)
    (h : findHeader lc doc = some (r, c)) :
    ∃ row, doc.get? r = some row ∧
      (∃ v, row.get? c = some v ∧ isHeaderCell lc v = true) ∧
      (∀ i row', i < r → doc.get? i = some row' →
        ∀ v' ∈ row', isHeaderCell lc v' = false) ∧
      (∀ j v', j < c → row.get? j = some v' → isHeaderCell lc v' = false) := by
  induction doc generalizing r with
  | nil => cases h
  | cons row0 rest ih =>
    rw [findHeader] at h
    cases hf : firstIdx (isHeaderCell lc) row0 with
    | some c0 =>
      rw [hf] at h
      cases h
      obtain ⟨v, hv, hpv, hmin⟩ := firstIdx_some _ _ _ hf
      exact ⟨row0, rfl, ⟨v, hv, hpv⟩,
        fun i row' hi => absurd hi (Nat.not_lt_zero i), hmin⟩
    | none =>
      rw [hf] at h
      cases hrec : findHeader lc rest with
      | none => rw [hrec] at h; cases h
      | some p =>
        rw [hrec] at h
        cases h
        obtain ⟨row, hrow, hcell, hrows, hcols⟩ := ih p.1 hrec
        refine ⟨row, hrow, hcell, fun i row' hi hget => ?_, hcols⟩
        cases i with
        | zero =>
          cases hget
          exact firstIdx_none_all _ _ hf
        | succ i' =>
          exact hrows i' row' (Nat.lt_of_succ_lt_succ hi) hget

/-- `split_records` keeps exactly the longest all-truthy-tested run of
sliced rows. -/
theorem split_records_takeWhile (sc : Nat) (rows : List (List CellValue)) :
    split_records sc rows = (rows.map (·.drop sc)).takeWhile (·.any truthy) := by
  induction rows with
  | nil => rfl
  | cons r rest ih =>
    rw [split_records, List.map_cons, List.takeWhile_cons]
    cases h : (r.drop sc).any truthy <;> simp [h, ih]

/-- Cells that are `None`, the empty string, or the number `0` are falsy. -/
theorem zeroish_falsy (v : CellValue)
    (h : v = .empty ∨ v = .str "" ∨ v = .num 0) : truthy v = false := by
  rcases h with rfl | rfl | rfl <;> rfl

/-- A row of falsy cells fails the `any` test of `split_records`. -/
theorem all_falsy_any (l : List CellValue) (h : ∀ v ∈ l, truthy v = false) :
    l.any truthy = false := by
  induction l with
  | nil => rfl
  | cons x xs ih =>
    rw [List.any_cons, h x (List.mem_cons_self x xs),
        ih fun v hv => h v (List.mem_cons_of_mem x hv)]
    rfl

/-- Extraction ends at the first row whose sliced cells are all `None`,
`""` or `0`; rows below it are never reached. -/
theorem split_records_stops (sc : Nat) (pre rest : List (List CellValue))
    (r : List CellValue)
    (hz : ∀ v ∈ r.drop sc, v = .empty ∨ v = .str "" ∨ v = .num 0)
    (hp : ∀ row ∈ pre, ((row.drop sc).any truthy) = true) :
    split_records sc (pre ++ r :: rest) = pre.map (·.drop sc) := by
  induction pre with
  | nil =>
    rw [List.nil_append, split_records]
    rw [all_falsy_any _ fun v hv => zeroish_falsy v (hz v hv)]
    rfl
  | cons p ps ih =>
    rw [List.cons_append, split_records]
    rw [hp p (List.mem_cons_self p ps)]
    rw [ih fun row hrow => hp row (List.mem_cons_of_mem p hrow)]
    rfl

/-- A held currency equal to every remaining line currency survives the
unification loop. -/
theorem unify_held (c : Option CellValue) (xs : List (Option CellValue))
    (h : ∀ y ∈ xs, y = c) : unify_currency c xs = c := by
  induction xs with
  | nil => rfl
  | cons y ys ih =>
    rw [h y (List.mem_cons_self y ys), unify_currency, if_pos (Or.inr rfl)]
    exact ih fun z hz => h z (List.mem_cons_of_mem y hz)

/-- When every line carries the same currency value, unification ends with
that common value (and with unset for an empty line list). -/
theorem unify_all_eq (c : Option CellValue) (lines : List (Option CellValue))
    (h : ∀ x ∈ lines, x = c) :
    unify_currency none lines = if lines.isEmpty then none else c := by
  cases lines with
  | nil => rfl
  | cons x xs =>
    rw [unify_currency, if_pos (Or.inl rfl)]
    rw [h x (List.mem_cons_self x xs)]
    rw [unify_held c xs fun z hz => h z (List.mem_cons_of_mem x hz)]
    rfl

/-- A document with no header-matching cell anywhere makes `parse` fail
with the header-not-found error (padding adds only empty cells, which never
match). -/
theorem parse_header_missing (lc : Locale) (aid : String)
    (doc : List (List CellValue))
    (h : ∀ r ∈ doc, ∀ v ∈ r, isHeaderCell lc v = false) :
    parse lc aid doc = .error "No compatible header cell found" := by
  have hp : ∀ r' ∈ doc.map (padTo (maxWidth doc)), ∀ v ∈ r',
      isHeaderCell lc v = false := by
    intro r' hr' v hv
    obtain ⟨r, hr, rfl⟩ := List.mem_map.mp hr'
    rcases List.mem_append.mp hv with hv1 | hv2
    · exact h r hr v hv1
    · rw [List.eq_of_mem_replicate hv2]
      rfl
  unfold parse
  dsimp only
  rw [findHeader_none lc _ hp]

/-- On a standard Spanish data row, `parse_record` reduces to the
classifier result fed into record assembly and validation. -/
theorem parse_record_mkRow (c m d : String) (q : ℚ) (cur bal : CellValue) :
    parse_record .es fmapStd (mkRow c m d q cur bal) =
      (get_transaction_type .es (.str c) (.str m)).bind (fun tt =>
        assert_valid
          { date := .date (1, 3, 2024), amount := .num q, trntype := tt.1,
            memo := "[(" ++ pyStr tt.2 ++ ")-(" ++ m ++ ")] " ++ d,
            currency := if truthy cur then some cur else none,
            id := generate_transaction_id (.date (1, 3, 2024)) (.num q)
                    ("[(" ++ pyStr tt.2 ++ ")-(" ++ m ++ ")] " ++ d) }) := rfl

/-- C1, counterexample: on a document whose two data rows carry balances
100 and then 200, parse sets the starting balance to 200 — the last
balance-bearing row — not to 100, the first one, so the one-shot first-row
capture the claim states does not hold. -/
theorem claim1_counterexample :
    (parse .es "bbva-personal" docBalances).map (·.start_balance) =
      .ok (some (.num 200)) ∧
    (some (CellValue.num 200) : Option CellValue) ≠ some (.num 100) :=
  ⟨by decide, by decide⟩

/-- C1, amended: the balance loop scans every row below the header and
overwrites the starting balance on each row with a truthy BALANCE value,
so a successful scan ends with the balance of the last such row (and the
initial unset value when no row sets one). -/
theorem claim1_last_balance_wins (sc : Nat) (bo : Option Nat)
    (rows : List (List CellValue)) (out : Option CellValue)
    (h : balance_scan sc bo rows = .ok out) :
    out = (rows.filterMap (rowBal sc bo)).getLast? := by
  rw [balance_go_last sc bo rows none out h]
  cases (rows.filterMap (rowBal sc bo)).getLast? <;> rfl

/-- C1, witness for the amended theorem at a concrete two-row scan. -/
theorem claim1_witness :
    (some (CellValue.num 200) : Option CellValue) =
      (([[CellValue.num 100], [CellValue.num 200]] :
          List (List CellValue)).filterMap (rowBal 0 (some 0))).getLast? :=
  claim1_last_balance_wins 0 (some 0) [[.num 100], [.num 200]]
    (some (.num 200)) (by decide)

/-- C2: on the genuine text "Abono Bonificación pack" (with U+00F3) the
classifier answers DIRECTDEP through the generic "Abono " entry, because
the specific table key is stored as the mojibake "Abono BonificaciÃ³n
pack" (U+00C3 U+00B3), which the mojibake text itself does reach — the
spec's expected FEE answer differs from what the code computes. -/
theorem claim2_mojibake_divergence :
    get_transaction_type .es (.str "Abono Bonificación pack") (.str "") =
      .ok ("DIRECTDEP", .str "Abono Bonificación pack") ∧
    get_transaction_type .es (.str "Abono BonificaciÃ³n pack") (.str "") =
      .ok ("FEE", .str "Abono BonificaciÃ³n pack") ∧
    "DIRECTDEP" ≠ "FEE" :=
  ⟨by decide, by decide, by decide⟩

/-- C3, counterexample: a parse whose two transactions carry currencies
[absent, EUR] — a disagreement — ends with statement currency EUR, not
unset, because the loop overwrites an unset held currency instead of
treating the mismatch as disagreement. -/
theorem claim3_counterexample :
    (parse .es "bbva-personal" docNoneEur).map
        (fun st => (st.lines.map (·.currency), st.currency)) =
      .ok ([none, some (.str "EUR")], some (.str "EUR")) ∧
    (some (CellValue.str "EUR") : Option CellValue) ≠ none :=
  ⟨by decide, by decide⟩

/-- C3, amended: when every transaction carries the same currency value
the statement ends with that common value (unset for no transactions); a
line whose currency differs from the held non-empty one clears the
statement currency and stops the loop, but a held unset currency is simply
overwritten, so [EUR, EUR, EUR] yields EUR and [EUR, USD] yields unset
while [absent, EUR] yields EUR. -/
theorem claim3_currency_agreement :
    (∀ (c : Option CellValue) (lines : List (Option CellValue)),
        (∀ x ∈ lines, x = c) →
        unify_currency none lines = if lines.isEmpty then none else c) ∧
    (parse .es "bbva-personal" docEur3).map (·.currency) =
      .ok (some (.str "EUR")) ∧
    (parse .es "bbva-personal" docEurUsd).map (·.currency) = .ok none :=
  ⟨unify_all_eq, by decide, by decide⟩

/-- C3, witness for the all-agree branch of the amended theorem. -/
theorem claim3_witness :
    unify_currency none [some (CellValue.str "EUR"), some (CellValue.str "EUR")] =
      if ([some (CellValue.str "EUR"), some (CellValue.str "EUR")] :
          List (Option CellValue)).isEmpty then none
      else some (CellValue.str "EUR") :=
  claim3_currency_agreement.1 (some (CellValue.str "EUR"))
    [some (CellValue.str "EUR"), some (CellValue.str "EUR")] (by decide)

/-- C4, counterexample: on a row whose concept "Zzz" and movement "Mmm"
classify to the default OTHER case, the memo is "[(None)-(Mmm)] Dd" — the
type-source slot renders Python's None — not "[(Zzz)-(Mmm)] Dd" with the
concept text as the claim states. -/
theorem claim4_counterexample :
    (parse_record .es fmapStd cellsUnclassified).map (·.memo) =
      .ok "[(None)-(Mmm)] Dd" ∧
    "[(None)-(Mmm)] Dd" ≠ "[(Zzz)-(Mmm)] Dd" :=
  ⟨by decide, by decide⟩

/-- C4, amended: the memo is
`[(<type-source>)-(<movement>)] <description>` where the type-source slot
renders the classifier's source value: the concept or movement text for an
exact match, the concept text for a prefix match, and the text "None"
(Python's rendering of the absent source) for the default OTHER case. -/
theorem claim4_memo_composition (c m d : String) (q : ℚ) (cur bal : CellValue)
    (t : String) (src : CellValue)
    (h : get_transaction_type .es (.str c) (.str m) = .ok (t, src)) :
    (parse_record .es fmapStd (mkRow c m d q cur bal)).map (·.memo) =
      .ok ("[(" ++ pyStr src ++ ")-(" ++ m ++ ")] " ++ d) := by
  rw [parse_record_mkRow, h]
  rfl

/-- C4, witness for the amended theorem on the unclassified row. -/
theorem claim4_witness :
    (parse_record .es fmapStd (mkRow "Zzz" "Mmm" "Dd" 5 (.str "EUR") (.num 100))).map
        (·.memo) =
      .ok ("[(" ++ pyStr CellValue.empty ++ ")-(" ++ "Mmm" ++ ")] " ++ "Dd") :=
  claim4_memo_composition "Zzz" "Mmm" "Dd" 5 (.str "EUR") (.num 100)
    "OTHER" .empty (by decide)

/-- C5: the classifier resolves in fixed order with first success winning —
exact concept match, exact movement match, first matching table entry by
declared order against the concept, then OTHER with source absent — and on
text inputs never raises: it agrees everywhere with the spec-side
`classify_spec`. -/
theorem claim5_classifier_order (lc : Locale) (c m : String) :
    get_transaction_type lc (.str c) (.str m) =
      .ok ((classify_spec lc c m).1,
           match (classify_spec lc c m).2 with
           | some s => CellValue.str s
           | none => CellValue.empty) :=
  classify_agrees lc c m

/-- C6: header location scans rows top-to-bottom and cells left-to-right
and the first lowercase-matching cell fixes the header row and start
column; a document with no such cell anywhere makes parse fail with the
header-not-found error; and the scan is case-insensitive — a cell "FECHA"
matches the field text "Fecha". -/
theorem claim6_header_location :
    (∀ (lc : Locale) (aid : String) (doc : List (List CellValue)),
        (∀ r ∈ doc, ∀ v ∈ r, isHeaderCell lc v = false) →
        parse lc aid doc = .error "No compatible header cell found") ∧
    (∀ (lc : Locale) (doc : List (List CellValue)) (r c : Nat),
        findHeader lc doc = some (r, c) →
        ∃ row, doc.get? r = some row ∧
          (∃ v, row.get? c = some v ∧ isHeaderCell lc v = true) ∧
          (∀ i row', i < r → doc.get? i = some row' →
            ∀ v' ∈ row', isHeaderCell lc v' = false) ∧
          (∀ j v', j < c → row.get? j = some v' → isHeaderCell lc v' = false)) ∧
    findHeader .es [[.str "x", .str "FECHA"]] = some (0, 1) :=
  ⟨parse_header_missing, findHeader_first, by decide⟩

/-- C6, witness: a document with a single non-header cell is rejected with
the header-not-found error. -/
theorem claim6_witness :
    parse .es "bbva-personal" [[CellValue.str "hello"]] =
      .error "No compatible header cell found" :=
  claim6_header_location.1 .es "bbva-personal" [[.str "hello"]] (by decide)

/-- C7: row extraction takes exactly the consecutive rows below the header
up to (excluding) the first all-falsy row, and the blank-row document with
two data rows, a blank row, and a third data row parses to exactly two
transactions. -/
theorem claim7_blank_row_termination :
    (∀ (sc : Nat) (rows : List (List CellValue)),
        split_records sc rows =
          (rows.map (·.drop sc)).takeWhile (·.any truthy)) ∧
    (parse .es "bbva-personal" docBlankRow).map (·.lines.length) = .ok 2 :=
  ⟨split_records_takeWhile, by decide⟩

/-- C8: a numeric amount cell becomes the transaction's amount as the same
exact value (`Decimal(value)` is value-preserving), and the end-to-end
document with amount cell -45.30 yields one transaction whose amount is
the exact decimal -45.30 = -453/10. -/
theorem claim8_amount_exact :
    (∀ (c m d : String) (q : ℚ) (cur bal : CellValue)
        (t : String) (src : CellValue),
        get_transaction_type .es (.str c) (.str m) = .ok (t, src) →
        (parse_record .es fmapStd (mkRow c m d q cur bal)).map (·.amount) =
          .ok (.num q)) ∧
    amtNeg45_30 = -453 / 10 ∧
    (parse .es "bbva-personal" docEndToEnd).map
        (fun st => st.lines.map (·.amount)) =
      .ok [.num amtNeg45_30] := by
  refine ⟨fun c m d q cur bal t src h => ?_, ?_, by decide⟩
  · rw [parse_record_mkRow, h]
    rfl
  · rw [amtNeg45_30, Rat.mk'_eq_divInt, Rat.divInt_eq_div]
    norm_num

/-- C8, witness for the exact-amount conjunct at a concrete row. -/
theorem claim8_witness :
    (parse_record .es fmapStd (mkRow "Zzz" "Mmm" "Dd" 7 .empty .empty)).map
        (·.amount) = .ok (.num 7) :=
  claim8_amount_exact.1 "Zzz" "Mmm" "Dd" 7 .empty .empty "OTHER" .empty (by decide)

/-- C9: on a document whose header cells are the uppercase variants
"FECHA", "CONCEPTO", "IMPORTE", header location succeeds (case-insensitive)
at row 0, column 0, yet the case-sensitive field mapping binds nothing and
parse fails with the missing-date-column error. -/
theorem claim9_case_mismatch :
    findHeader .es docUpperHeader = some (0, 0) ∧
    parse .es "bbva-personal" docUpperHeader = .error "No date column found" :=
  ⟨by decide, by decide⟩

/-- C10: emptiness is tested by truthiness, so a row whose sliced cells
are all `None`, `""` or the number `0` terminates extraction and excludes
itself and everything below; a document whose middle row holds only zeros
parses to exactly the one transaction above it. -/
theorem claim10_zero_row_terminates :
    (∀ (sc : Nat) (pre rest : List (List CellValue)) (r : List CellValue),
        (∀ v ∈ r.drop sc, v = .empty ∨ v = .str "" ∨ v = .num 0) →
        (∀ row ∈ pre, ((row.drop sc).any truthy) = true) →
        split_records sc (pre ++ r :: rest) = pre.map (·.drop sc)) ∧
    (parse .es "bbva-personal" docZeroRow).map (·.lines.length) = .ok 1 :=
  ⟨split_records_stops, by decide⟩

/-- C10, witness: a concrete zero-only row ends extraction after the one
good row before it. -/
theorem claim10_witness :
    split_records 0
        ([[CellValue.str "a"]] ++ [CellValue.num 0] :: [[CellValue.str "b"]]) =
      ([[CellValue.str "a"]] : List (List CellValue)).map (·.drop 0) :=
  claim10_zero_row_terminates.1 0 [[.str "a"]] [[.str "b"]] [.num 0]
    (by decide) (by decide)

end BBVA
